import Mathlib

/-!
Shallow embedding of the go-orders-service event subsystem and the
order service business layer, translated from the Go sources:

* `internal/model` — the `Order` struct;
* `internal/events/publisher.go` — `RedisPublisher.Publish` (JSON-encode,
  then `XAdd` one entry with fields `event` and `payload` to stream `orders`);
* the consumer (`Consumer.Subscribe`, `Consumer.processMessage`,
  `Consumer.ackMessage`, `Consumer.handleOrderCreated`) — modelled as
  functions producing a trace of observable actions (log lines, sleeps,
  status-update callback invocations, `XAck` calls);
* `internal/service/order.go` — `OrderService.CreateOrder` and
  `OrderService.UpdateOrderStatus` over an explicit repository state.

External collaborators (the JSON codec, the Redis server reply for
`XGROUP CREATE`, the status-update callback result, injected transport
failures) are supplied as environment parameters, so the theorems
quantify over every behaviour of those collaborators.
-/

namespace OrdersService

/-- Domain order, from `internal/model`: `ID`, `Product`, `Quantity`,
`Status`, `CreatedAt` (timestamp modelled as a natural number). -/
structure Order where
  id : String
  product : String
  quantity : Int
  status : String
  createdAt : Nat
deriving DecidableEq, Repr

/-- A value stored in a Redis stream-entry field. Go declares the field map
as `map[string]interface{}`; the consumer type-asserts `.(string)`, which
succeeds exactly on string values, so we only distinguish strings from
everything else. -/
inductive RVal where
  | str (s : String)
  | nonStr
deriving DecidableEq, Repr

/-- One message read from the stream (`redis.XMessage`): its stream id and
its named field values. -/
structure XMessage where
  id : String
  values : List (String × RVal)
deriving DecidableEq, Repr

/-- `const StreamName = "orders"` from `internal/events/publisher.go`. -/
def StreamName : String := "orders"

/-- `const ConsumerGroup = "order-processors"` from the consumer. -/
def ConsumerGroup : String := "order-processors"

/-- `const ConsumerName = "processor-1"` from the consumer. -/
def ConsumerName : String := "processor-1"

/-- Go `m.Values[k].(string)`: the key is present and its value is a
string. -/
def getString (vs : List (String × RVal)) (k : String) : Option String :=
  match vs.lookup k with
  | some (RVal.str s) => some s
  | _ => none

/-- Result of `json.Marshal(message)` on the opaque Go `interface{}`
argument of `Publish`: either the serialized bytes (as a string) or a
serialization error. -/
inductive MarshalResult where
  | ok (data : String)
  | err (e : String)
deriving DecidableEq, Repr

/-- A stream entry as appended by `XAdd`: its named field values. -/
abbrev XEntry := List (String × RVal)

/-- The Redis stream state: every stream name maps to its entries in
append order. -/
def RedisStreams := String → List XEntry

/-- Redis `XADD`: append one entry with the given field values to the
named stream; all other streams are untouched. -/
def xadd (st : RedisStreams) (stream : String) (values : XEntry) : RedisStreams :=
  fun name => if name = stream then st name ++ [values] else st name

/-- `RedisPublisher.Publish(ctx, channel, message)` from
`internal/events/publisher.go`: `json.Marshal(message)`; on error return
it; otherwise `XAdd` to `StreamName` with values
`{"event": channel, "payload": string(data)}`. `transportErr` is the
result of the `XAdd` round trip (`.Err()`); on a transport failure the
append does not take effect and the error is returned. -/
def Publish (st : RedisStreams) (channel : String) (marshal : MarshalResult)
    (transportErr : Option String) : RedisStreams × Option String :=
  match marshal with
  | MarshalResult.err e => (st, some e)
  | MarshalResult.ok data =>
    match transportErr with
    | some e => (st, some e)
    | none =>
      (xadd st StreamName [("event", RVal.str channel), ("payload", RVal.str data)], none)

/-- Observable actions of the consumer, in program order: log lines,
sleeps, the status-update callback invocation, and `XAck` calls. -/
inductive Action where
  | readCall
  | logReadError
  | backoff (seconds : Nat)
  | logInvalidEvent (msgId : String)
  | logInvalidPayload (msgId : String)
  | logEventReceived (event : String) (msgId : String)
  | logDecodeError
  | handlerDelay (seconds : Nat)
  | updateOrderStatus (id : String) (status : String)
  | logUpdateError (id : String)
  | logConfirmed (id : String)
  | ack (msgId : String)
  | logAckError (msgId : String)
  | logShutdown
deriving DecidableEq, Repr

/-- Environment of the consumer: behaviour of its collaborators.
`decodeOrder` is `json.Unmarshal` into `model.Order`; `updateStatusErr`
is the error result of the injected `OrderStatusUpdater` callback;
`ackErr` is the error result of `XAck` per message id; `updaterPresent`
is `c.updater != nil`. -/
structure ConsumerEnv where
  updaterPresent : Bool
  decodeOrder : String → Option Order
  updateStatusErr : String → String → Option String
  ackErr : String → Option String

/-- `Consumer.handleOrderCreated(ctx, payload)`: unmarshal the payload
into an `Order` (log and return on failure); sleep 2 seconds; if the
updater is present, call `UpdateOrderStatus(order.ID, "confirmed")` and
log the outcome. -/
def handleOrderCreated (env : ConsumerEnv) (payload : String) : List Action :=
  match env.decodeOrder payload with
  | none => [Action.logDecodeError]
  | some order =>
    Action.handlerDelay 2 ::
      (if env.updaterPresent then
        Action.updateOrderStatus order.id "confirmed" ::
          (match env.updateStatusErr order.id "confirmed" with
           | some _ => [Action.logUpdateError order.id]
           | none => [Action.logConfirmed order.id])
      else [])

/-- `Consumer.ackMessage(ctx, messageID)`: `XAck` the message; a failure
is only logged. -/
def ackMessage (env : ConsumerEnv) (msgId : String) : List Action :=
  Action.ack msgId ::
    (match env.ackErr msgId with
     | some _ => [Action.logAckError msgId]
     | none => [])

/-- `Consumer.processMessage(ctx, message)`: assert the `event` and
`payload` fields as strings (on failure log a warning and ack
immediately); log the received event; route `order.created` to
`handleOrderCreated`; finally ack. -/
def processMessage (env : ConsumerEnv) (msg : XMessage) : List Action :=
  match getString msg.values "event" with
  | none => Action.logInvalidEvent msg.id :: ackMessage env msg.id
  | some event =>
    match getString msg.values "payload" with
    | none => Action.logInvalidPayload msg.id :: ackMessage env msg.id
    | some payload =>
      Action.logEventReceived event msg.id ::
        ((if event = "order.created" then handleOrderCreated env payload else []) ++
          ackMessage env msg.id)

/-- The nested loop over the streams returned by one `XReadGroup` call:
`for _, stream := range streams { for _, message := range stream.Messages
{ c.processMessage(ctx, message) } }`. -/
def processBatch (env : ConsumerEnv) (streams : List (List XMessage)) : List Action :=
  (streams.map (fun msgs => (msgs.map (processMessage env)).flatten)).flatten

/-- Result of one blocking `XReadGroup` call: `redis.Nil` (timeout with
no data), another error, or a batch of streams each carrying messages. -/
inductive ReadResult where
  | timeout
  | transportErr
  | batch (streams : List (List XMessage))
deriving DecidableEq, Repr

/-- Input of one iteration of the `Subscribe` loop: whether `ctx.Done()`
is ready at the top of the loop, the read result, and whether
`ctx.Err() != nil` when the read returned an error. -/
structure IterInput where
  cancelled : Bool
  read : ReadResult
  ctxErr : Bool
deriving DecidableEq, Repr

/-- One iteration of the `for` loop in `Consumer.Subscribe`: the actions
it emits and whether the loop returns. The top `select` checks
cancellation before issuing the read; `redis.Nil` retries immediately;
another read error returns if the context is done, else logs and sleeps
one second; a batch is processed sequentially. -/
def subscribeIter (env : ConsumerEnv) (inp : IterInput) : List Action × Bool :=
  if inp.cancelled then ([Action.logShutdown], true)
  else
    match inp.read with
    | ReadResult.timeout => ([Action.readCall], false)
    | ReadResult.transportErr =>
      if inp.ctxErr then ([Action.readCall], true)
      else ([Action.readCall, Action.logReadError, Action.backoff 1], false)
    | ReadResult.batch streams =>
      (Action.readCall :: processBatch env streams, false)

/-- Run of the `Subscribe` loop over a finite prefix of iteration inputs:
the concatenated action trace and whether the loop returned within the
prefix. An exhausted input list models an observation horizon, not loop
exit. -/
def subscribeRun (env : ConsumerEnv) : List IterInput → List Action × Bool
  | [] => ([], false)
  | inp :: rest =>
    let step := subscribeIter env inp
    if step.2 then (step.1, true)
    else
      let tail := subscribeRun env rest
      (step.1 ++ tail.1, tail.2)

/-- An iteration input on which the loop observes cancellation: either
`ctx.Done()` is ready at the top, or the read failed with
`ctx.Err() != nil`. -/
def IterInput.observesCancel (inp : IterInput) : Bool :=
  inp.cancelled ||
    (match inp.read with
     | ReadResult.transportErr => inp.ctxErr
     | _ => false)

/-- The literal error text Redis returns for creating an existing
consumer group, compared against in `Consumer.Subscribe`. -/
def busyGroupMsg : String := "BUSYGROUP Consumer Group name already exists"

/-- The Redis server's consumer-group state: the set of (stream, group)
pairs that exist. -/
abbrev RedisGroups := List (String × String)

/-- Redis `XGROUP CREATE ... MKSTREAM` semantics (external service,
modelled from its documented behaviour): creating an existing group
replies `BUSYGROUP`, otherwise the group is created. -/
def xgroupCreateMkStream (gs : RedisGroups) (stream group : String) :
    RedisGroups × Option String :=
  if (stream, group) ∈ gs then (gs, some busyGroupMsg)
  else ((stream, group) :: gs, none)

/-- The group-creation step at the top of `Consumer.Subscribe`:
`XGroupCreateMkStream` whose error is reported (logged) only when it is
not the `BUSYGROUP` reply. Returns the new group state and whether an
error was reported. -/
def ensureGroup (gs : RedisGroups) (stream group : String) : RedisGroups × Bool :=
  let step := xgroupCreateMkStream gs stream group
  match step.2 with
  | some e => (step.1, e != busyGroupMsg)
  | none => (step.1, false)

/-! ### Business layer: `internal/service/order.go` -/

/-- An error value of the business layer, kept abstract as its message. -/
abbrev Err := String

/-- `service.CreateOrderRequest`: a create request carries only `Product`
and `Quantity` (JSON fields `product`, `quantity`). -/
structure CreateOrderRequest where
  product : String
  quantity : Int
deriving DecidableEq, Repr

/-- The repository state: the `orders` table as a list of rows in
insertion order. -/
structure RepoState where
  orders : List Order
deriving DecidableEq, Repr

/-- `repo.GetByID`: the row whose `id` matches, if any. -/
def RepoState.getByID (st : RepoState) (id : String) : Option Order :=
  st.orders.find? (fun o => o.id == id)

/-- `repo.Create`: insert one row. -/
def RepoState.create (st : RepoState) (o : Order) : RepoState :=
  ⟨st.orders ++ [o]⟩

/-- Modelled from the spec: `PostgresOrderRepository.Update` is not under
`src/` (only the `OrderRepository` interface and the mock used by the
service tests are). Modelled as the plain CRUD row update the spec
describes (and the test mock implements): replace the row with the
matching id; if no row matches, fail with `sql.ErrNoRows` leaving the
table unchanged. -/
def RepoState.update (st : RepoState) (o : Order) : RepoState × Option Err :=
  if (st.getByID o.id).isSome then
    (⟨st.orders.map (fun x => if x.id == o.id then o else x)⟩, none)
  else (st, some "sql: no rows in result set")

/-- Observable side actions of the service functions: the publish call
and the log lines. -/
inductive SvcAction where
  | publishCall (channel : String) (o : Order)
  | logPublishError
  | logPublished (channel : String) (id : String)
  | logCreateError
deriving DecidableEq, Repr

/-- Environment of `CreateOrder`: the fresh `uuid.New().String()`, the
`time.Now()` timestamp, whether a publisher is injected
(`s.publisher != nil`), the publish result for this call, and an
injected transport failure of `repo.Create`. -/
structure ServiceEnv where
  newUUID : String
  now : Nat
  publisherPresent : Bool
  publishErr : Option Err
  createErr : Option Err
deriving DecidableEq, Repr

/-- The order literal built at the top of `OrderService.CreateOrder`:
fresh UUID, request product and quantity, literal status `"pending"`,
current time. -/
def mkOrder (env : ServiceEnv) (req : CreateOrderRequest) : Order :=
  ⟨env.newUUID, req.product, req.quantity, "pending", env.now⟩

/-- `OrderService.CreateOrder(ctx, req)`: build the order; `repo.Create`
(on failure log and return the error); if a publisher is present,
publish `order.created` — a publish failure is only logged; return the
created order. -/
def CreateOrder (env : ServiceEnv) (st : RepoState) (req : CreateOrderRequest) :
    RepoState × Except Err Order × List SvcAction :=
  let order := mkOrder env req
  match env.createErr with
  | some e => (st, Except.error e, [SvcAction.logCreateError])
  | none =>
    let st1 := st.create order
    if env.publisherPresent then
      match env.publishErr with
      | some _ =>
        (st1, Except.ok order,
          [SvcAction.publishCall "order.created" order, SvcAction.logPublishError])
      | none =>
        (st1, Except.ok order,
          [SvcAction.publishCall "order.created" order,
           SvcAction.logPublished "order.created" order.id])
    else (st1, Except.ok order, [])

/-- Injected transport failures of the repository calls made by
`UpdateOrderStatus`: a failure of `GetByID` and a failure of `Update`
(beyond the row-missing failure `RepoState.update` itself models). -/
structure RepoEnv where
  getErr : Option Err
  updateErr : Option Err
deriving DecidableEq, Repr

/-- `OrderService.UpdateOrderStatus(ctx, id, status)`: `repo.GetByID`
(on failure return the error); set `order.Status = status`;
`repo.Update` (on failure return the error). Returns the new repository
state and the error result. -/
def UpdateOrderStatus (env : RepoEnv) (st : RepoState) (id status : String) :
    RepoState × Option Err :=
  match env.getErr with
  | some e => (st, some e)
  | none =>
    match st.getByID id with
    | none => (st, some "sql: no rows in result set")
    | some order =>
      match env.updateErr with
      | some e => (st, some e)
      | none => st.update { order with status := status }

/-! ### Action classifiers used by the theorems -/

/-- The action is the status-update callback invocation. -/
def Action.isStatusCallback : Action → Bool
  | Action.updateOrderStatus _ _ => true
  | _ => false

/-- The action is the handler's fixed delay or the status-update
callback invocation. -/
def Action.isDelayOrCallback : Action → Bool
  | Action.handlerDelay _ => true
  | Action.updateOrderStatus _ _ => true
  | _ => false

/-- The action is an `XAck` call. -/
def Action.isAck : Action → Bool
  | Action.ack _ => true
  | _ => false

/-- The action is one that only `handleOrderCreated` emits: the dispatch
hand-off to the registered handler. -/
def Action.isHandlerAction : Action → Bool
  | Action.logDecodeError => true
  | Action.handlerDelay _ => true
  | Action.updateOrderStatus _ _ => true
  | Action.logUpdateError _ => true
  | Action.logConfirmed _ => true
  | _ => false

/-- `ackMessage` emits no handler delay or callback action. -/
lemma ackMessage_filter_delayOrCallback (env : ConsumerEnv) (msgId : String) :
    (ackMessage env msgId).filter Action.isDelayOrCallback = [] := by
  unfold ackMessage
  cases h : env.ackErr msgId <;>
    simp [Action.isDelayOrCallback]

/-- `ackMessage` emits no status-update callback action. -/
lemma ackMessage_filter_statusCallback (env : ConsumerEnv) (msgId : String) :
    (ackMessage env msgId).filter Action.isStatusCallback = [] := by
  unfold ackMessage
  cases h : env.ackErr msgId <;>
    simp [Action.isStatusCallback]

/-- C1. For every entry whose kind is `"order.created"`, processing
invokes the status-update callback `UpdateOrderStatus` with the entry's
order id and the literal status `"confirmed"`, exactly once per entry and
after the fixed 2-second delay, if and only if the entry's payload
decodes into a domain order; if the payload is unparsable, no callback is
invoked and a decode error is logged. -/
theorem orderCreated_callback_exactly_once_after_delay
    (env : ConsumerEnv) (msg : XMessage) (p : String)
    (hev : getString msg.values "event" = some "order.created")
    (hp : getString msg.values "payload" = some p)
    (hup : env.updaterPresent = true) :
    (∀ o, env.decodeOrder p = some o →
      (processMessage env msg).filter Action.isDelayOrCallback
        = [Action.handlerDelay 2, Action.updateOrderStatus o.id "confirmed"]) ∧
    (env.decodeOrder p = none →
      (processMessage env msg).filter Action.isStatusCallback = [] ∧
      Action.logDecodeError ∈ processMessage env msg) := by
  constructor
  · intro o ho
    simp only [processMessage, hev, hp, if_pos rfl]
    simp only [handleOrderCreated, ho, hup, if_pos rfl]
    cases hcb : env.updateStatusErr o.id "confirmed" <;>
      simp [ackMessage_filter_delayOrCallback, Action.isDelayOrCallback]
  · intro ho
    simp only [processMessage, hev, hp, if_pos rfl]
    simp only [handleOrderCreated, ho]
    refine ⟨?_, ?_⟩
    · simp [ackMessage_filter_statusCallback, Action.isStatusCallback]
    · simp

/-- Witness for C1 at a concrete `order.created` entry whose payload
decodes to the order `o1`. -/
theorem orderCreated_callback_witness :
    (processMessage
        ⟨true, fun _ => some ⟨"o1", "Laptop", 1, "pending", 0⟩,
          fun _ _ => none, fun _ => none⟩
        ⟨"1-0", [("event", RVal.str "order.created"), ("payload", RVal.str "P")]⟩).filter
        Action.isDelayOrCallback
      = [Action.handlerDelay 2, Action.updateOrderStatus "o1" "confirmed"] :=
  (orderCreated_callback_exactly_once_after_delay
      ⟨true, fun _ => some ⟨"o1", "Laptop", 1, "pending", 0⟩,
        fun _ _ => none, fun _ => none⟩
      ⟨"1-0", [("event", RVal.str "order.created"), ("payload", RVal.str "P")]⟩
      "P" (by decide) (by decide) rfl).1
    ⟨"o1", "Laptop", 1, "pending", 0⟩ rfl

/-- `ackMessage` emits exactly one `XAck`, for the given message id. -/
lemma ackMessage_filter_isAck (env : ConsumerEnv) (msgId : String) :
    (ackMessage env msgId).filter Action.isAck = [Action.ack msgId] := by
  unfold ackMessage
  cases h : env.ackErr msgId <;>
    simp [Action.isAck]

/-- `ackMessage` emits no handler action. -/
lemma ackMessage_filter_handlerAction (env : ConsumerEnv) (msgId : String) :
    (ackMessage env msgId).filter Action.isHandlerAction = [] := by
  unfold ackMessage
  cases h : env.ackErr msgId <;>
    simp [Action.isHandlerAction]

/-- `handleOrderCreated` emits no `XAck`. -/
lemma handleOrderCreated_filter_isAck (env : ConsumerEnv) (p : String) :
    (handleOrderCreated env p).filter Action.isAck = [] := by
  unfold handleOrderCreated
  cases hd : env.decodeOrder p with
  | none => simp [Action.isAck]
  | some o =>
    cases hup : env.updaterPresent
    · simp [Action.isAck]
    · cases hcb : env.updateStatusErr o.id "confirmed" <;>
        simp [hcb, Action.isAck]

/-- `processMessage` emits exactly one `XAck`, for the processed
entry's id, on every path. -/
lemma processMessage_filter_isAck (env : ConsumerEnv) (msg : XMessage) :
    (processMessage env msg).filter Action.isAck = [Action.ack msg.id] := by
  unfold processMessage
  cases hev : getString msg.values "event" with
  | none => simp [ackMessage_filter_isAck, Action.isAck]
  | some event =>
    cases hp : getString msg.values "payload" with
    | none => simp [ackMessage_filter_isAck, Action.isAck]
    | some payload =>
      by_cases hoc : event = "order.created"
      · simp [hoc, List.filter_append, handleOrderCreated_filter_isAck,
          ackMessage_filter_isAck, Action.isAck]
      · simp [hoc, ackMessage_filter_isAck, Action.isAck]

/-- C2. Every entry handed to `processMessage` is acknowledged exactly
once: the trace contains exactly one `XAck`, for that entry's id; an
entry whose `event` or `payload` field is missing or not a string is
acknowledged without being routed to any handler; and in every case the
acknowledgment comes after the handler (if any) has returned — the trace
is a handler-and-log prefix containing no `XAck`, followed by the ack
call. -/
theorem every_entry_acked_exactly_once (env : ConsumerEnv) (msg : XMessage) :
    (processMessage env msg).filter Action.isAck = [Action.ack msg.id] ∧
    ((getString msg.values "event" = none ∨ getString msg.values "payload" = none) →
      (processMessage env msg).filter Action.isHandlerAction = []) ∧
    ∃ pre, processMessage env msg = pre ++ ackMessage env msg.id ∧
      pre.filter Action.isAck = [] := by
  refine ⟨processMessage_filter_isAck env msg, ?_, ?_⟩ <;>
    unfold processMessage
  · intro h
    cases hev : getString msg.values "event" with
    | none =>
      simp [ackMessage_filter_handlerAction, Action.isHandlerAction]
    | some event =>
      cases hp : getString msg.values "payload" with
      | none =>
        simp [ackMessage_filter_handlerAction, Action.isHandlerAction]
      | some payload =>
        rcases h with h | h <;> simp_all
  · cases hev : getString msg.values "event" with
    | none =>
      exact ⟨[Action.logInvalidEvent msg.id], by simp, by simp [Action.isAck]⟩
    | some event =>
      cases hp : getString msg.values "payload" with
      | none =>
        exact ⟨[Action.logInvalidPayload msg.id], by simp, by simp [Action.isAck]⟩
      | some payload =>
        refine ⟨Action.logEventReceived event msg.id ::
          (if event = "order.created" then handleOrderCreated env payload else []), ?_, ?_⟩
        · simp
        · by_cases hoc : event = "order.created" <;>
            simp [hoc, handleOrderCreated_filter_isAck, Action.isAck]

/-- Witness for C2 at a concrete entry missing the `event` field: it is
acknowledged exactly once and no handler action is emitted. -/
theorem every_entry_acked_witness :
    (processMessage ⟨true, fun _ => none, fun _ _ => none, fun _ => none⟩
        ⟨"1-1", [("payload", RVal.str "x")]⟩).filter Action.isAck
      = [Action.ack "1-1"] ∧
    (processMessage ⟨true, fun _ => none, fun _ _ => none, fun _ => none⟩
        ⟨"1-1", [("payload", RVal.str "x")]⟩).filter Action.isHandlerAction = [] := by
  have h := every_entry_acked_exactly_once
    ⟨true, fun _ => none, fun _ _ => none, fun _ => none⟩
    ⟨"1-1", [("payload", RVal.str "x")]⟩
  exact ⟨h.1, h.2.1 (Or.inl (by decide))⟩

/-- C7. A well-formed entry whose `event` field is any string other than
`"order.created"` is acknowledged without invoking any handler: its trace
is exactly the received-event log line followed by the ack call, and it
contains no handler action. -/
theorem unrecognized_kind_acked_without_handler
    (env : ConsumerEnv) (msg : XMessage) (event payload : String)
    (hev : getString msg.values "event" = some event)
    (hne : event ≠ "order.created")
    (hp : getString msg.values "payload" = some payload) :
    processMessage env msg
      = Action.logEventReceived event msg.id :: ackMessage env msg.id ∧
    (processMessage env msg).filter Action.isHandlerAction = [] := by
  constructor
  · simp [processMessage, hev, hp, hne]
  · simp [processMessage, hev, hp, hne, ackMessage_filter_handlerAction,
      Action.isHandlerAction]

/-- Witness for C7 at a concrete well-formed `order.updated` entry. -/
theorem unrecognized_kind_witness :
    processMessage ⟨true, fun _ => none, fun _ _ => none, fun _ => none⟩
        ⟨"1-2", [("event", RVal.str "order.updated"), ("payload", RVal.str "x")]⟩
      = Action.logEventReceived "order.updated" "1-2" ::
          ackMessage ⟨true, fun _ => none, fun _ _ => none, fun _ => none⟩ "1-2" :=
  (unrecognized_kind_acked_without_handler
      ⟨true, fun _ => none, fun _ _ => none, fun _ => none⟩
      ⟨"1-2", [("event", RVal.str "order.updated"), ("payload", RVal.str "x")]⟩
      "order.updated" "x" (by decide) (by decide) (by decide)).1

/-- The per-entry traces of a batch, concatenated in batch order, carry
their `XAck` calls in that same order. -/
lemma flatten_map_filter_isAck (env : ConsumerEnv) (msgs : List XMessage) :
    ((msgs.map (processMessage env)).flatten).filter Action.isAck
      = msgs.map (fun m => Action.ack m.id) := by
  induction msgs with
  | nil => rfl
  | cons m rest ih =>
    simp [List.filter_append, processMessage_filter_isAck, ih]

/-- The nested stream/message loop concatenates the per-entry traces in
the flattened batch order. -/
lemma processBatch_eq_flat (env : ConsumerEnv) (streams : List (List XMessage)) :
    processBatch env streams
      = ((streams.flatten).map (processMessage env)).flatten := by
  induction streams with
  | nil => rfl
  | cons msgs rest ih =>
    simp only [processBatch] at ih ⊢
    simp [List.map_append, List.flatten_append, ih]

/-- C5. For every batch returned by a blocking read, the dispatch loop
processes the entries sequentially in the order of the returned batch:
the iteration's trace is the read call followed by the per-entry traces
concatenated in batch order, and the acknowledgments appear in exactly
that same order. -/
theorem batch_processed_sequentially_in_order
    (env : ConsumerEnv) (streams : List (List XMessage)) (ctxErr : Bool) :
    subscribeIter env ⟨false, ReadResult.batch streams, ctxErr⟩
      = (Action.readCall :: ((streams.flatten).map (processMessage env)).flatten, false) ∧
    (processBatch env streams).filter Action.isAck
      = (streams.flatten).map (fun m => Action.ack m.id) := by
  constructor
  · simp [subscribeIter, processBatch_eq_flat]
  · rw [processBatch_eq_flat]
    exact flatten_map_filter_isAck env streams.flatten

/-- Whether one loop iteration returns is exactly whether it observes
cancellation (at the loop top, or as a context error after a failed
read). -/
lemma subscribeIter_exits_iff (env : ConsumerEnv) (inp : IterInput) :
    (subscribeIter env inp).2 = inp.observesCancel := by
  obtain ⟨c, r, e⟩ := inp
  cases c <;> cases r <;> cases e <;>
    simp [subscribeIter, IterInput.observesCancel]

/-- C3. The dispatch loop never terminates on a read failure: a timeout
read (`redis.Nil`) retries the blocking read immediately with no backoff;
any other read error (context not cancelled) is logged and retried after
a one-second pause; an iteration that observes cancellation at the loop
top returns without issuing a read; a run none of whose iterations
observes cancellation never returns; and once an iteration observes
cancellation the run is unaffected by any later input — the loop performs
no further reads. -/
theorem loop_exits_only_on_cancellation :
    (∀ (env : ConsumerEnv) (c : Bool),
      subscribeIter env ⟨false, ReadResult.timeout, c⟩ = ([Action.readCall], false)) ∧
    (∀ env : ConsumerEnv,
      subscribeIter env ⟨false, ReadResult.transportErr, false⟩
        = ([Action.readCall, Action.logReadError, Action.backoff 1], false)) ∧
    (∀ (env : ConsumerEnv) (r : ReadResult) (c : Bool),
      subscribeIter env ⟨true, r, c⟩ = ([Action.logShutdown], true)) ∧
    (∀ (env : ConsumerEnv) (inps : List IterInput),
      (∀ inp ∈ inps, inp.observesCancel = false) →
      (subscribeRun env inps).2 = false) ∧
    (∀ (env : ConsumerEnv) (pre : List IterInput) (inp : IterInput)
        (rest : List IterInput),
      (∀ p ∈ pre, p.observesCancel = false) →
      inp.observesCancel = true →
      subscribeRun env (pre ++ inp :: rest) = subscribeRun env (pre ++ [inp])) := by
  refine ⟨fun env c => by simp [subscribeIter],
    fun env => by simp [subscribeIter],
    fun env r c => by simp [subscribeIter],
    fun env inps => ?_, fun env pre inp rest => ?_⟩
  · induction inps with
    | nil => intro _; simp [subscribeRun]
    | cons i rest ih =>
      intro h
      have h1 : (subscribeIter env i).2 = false := by
        rw [subscribeIter_exits_iff]
        exact h i (List.mem_cons_self i rest)
      have h2 := ih (fun p hp => h p (List.mem_cons_of_mem i hp))
      simp [subscribeRun, h1, h2]
  · induction pre with
    | nil =>
      intro _ hc
      have h1 : (subscribeIter env inp).2 = true := by
        rw [subscribeIter_exits_iff]; exact hc
      simp [subscribeRun, h1]
    | cons p pre' ih =>
      intro h hc
      have h1 : (subscribeIter env p).2 = false := by
        rw [subscribeIter_exits_iff]
        exact h p (List.mem_cons_self p pre')
      have h2 := ih (fun q hq => h q (List.mem_cons_of_mem p hq)) hc
      simp [subscribeRun, h1, h2]

/-- Witness for C3: a concrete two-iteration run with a timeout and a
transport error does not return, and a run that observes cancellation at
its second iteration is unaffected by a third input. -/
theorem loop_exits_only_on_cancellation_witness :
    (subscribeRun ⟨true, fun _ => none, fun _ _ => none, fun _ => none⟩
      [⟨false, ReadResult.timeout, false⟩, ⟨false, ReadResult.transportErr, false⟩]).2
        = false ∧
    subscribeRun ⟨true, fun _ => none, fun _ _ => none, fun _ => none⟩
        [⟨false, ReadResult.timeout, false⟩, ⟨true, ReadResult.timeout, false⟩,
          ⟨false, ReadResult.timeout, false⟩]
      = subscribeRun ⟨true, fun _ => none, fun _ _ => none, fun _ => none⟩
          [⟨false, ReadResult.timeout, false⟩, ⟨true, ReadResult.timeout, false⟩] := by
  have h := loop_exits_only_on_cancellation
  refine ⟨h.2.2.2.1 _ _ ?_, ?_⟩
  · decide
  · have h5 := h.2.2.2.2 ⟨true, fun _ => none, fun _ _ => none, fun _ => none⟩
      [⟨false, ReadResult.timeout, false⟩] ⟨true, ReadResult.timeout, false⟩
      [⟨false, ReadResult.timeout, false⟩] (by decide) (by decide)
    simpa using h5

/-- Creating a group that already exists reports no error: the
`BUSYGROUP` reply is filtered out by the error check. -/
lemma ensureGroup_mem_noErr (gs : RedisGroups) (stream group : String)
    (h : (stream, group) ∈ gs) : (ensureGroup gs stream group).2 = false := by
  simp [ensureGroup, xgroupCreateMkStream, h]

/-- After `ensureGroup`, the group exists. -/
lemma ensureGroup_mem (gs : RedisGroups) (stream group : String) :
    (stream, group) ∈ (ensureGroup gs stream group).1 := by
  unfold ensureGroup xgroupCreateMkStream
  by_cases h : (stream, group) ∈ gs <;> simp [h]

/-- C6. Consumer-group creation is idempotent: a "group already exists"
reply from group creation is treated as success (no error is reported),
and performing group creation twice with the same stream and group name
never reports an error on the second call. -/
theorem group_creation_idempotent :
    (∀ (gs : RedisGroups) (stream group : String),
      (stream, group) ∈ gs → (ensureGroup gs stream group).2 = false) ∧
    (∀ (gs : RedisGroups) (stream group : String),
      (ensureGroup (ensureGroup gs stream group).1 stream group).2 = false) :=
  ⟨ensureGroup_mem_noErr,
    fun gs stream group =>
      ensureGroup_mem_noErr _ stream group (ensureGroup_mem gs stream group)⟩

/-- Witness for C6: creating `order-processors` on `orders` when it
already exists reports no error. -/
theorem group_creation_idempotent_witness :
    (ensureGroup [("orders", "order-processors")] "orders" "order-processors").2
      = false :=
  group_creation_idempotent.1 [("orders", "order-processors")]
    "orders" "order-processors" (by decide)

/-- C8. `Publish` returns the serialization error and appends nothing
to any stream when the message cannot be JSON-encoded; otherwise (with
the transport up) it appends exactly one entry to the stream named
`"orders"`, whose wire record is exactly the two named fields `event`
(the kind string) and `payload` (the serialized message), leaving every
other stream untouched and returning no error. -/
theorem publish_wire_record :
    (∀ (st : RedisStreams) (channel e : String) (terr : Option String),
      Publish st channel (MarshalResult.err e) terr = (st, some e)) ∧
    (∀ (st : RedisStreams) (channel data : String),
      (Publish st channel (MarshalResult.ok data) none).1 "orders"
        = st "orders"
            ++ [[("event", RVal.str channel), ("payload", RVal.str data)]] ∧
      (∀ n, n ≠ "orders" → (Publish st channel (MarshalResult.ok data) none).1 n = st n) ∧
      (Publish st channel (MarshalResult.ok data) none).2 = none) := by
  refine ⟨fun st channel e terr => rfl, fun st channel data => ⟨?_, fun n hn => ?_, rfl⟩⟩
  · simp [Publish, xadd, StreamName]
  · simp [Publish, xadd, StreamName, hn]

/-- Witness for C8: publishing with a failed marshal leaves the empty
stream state unchanged and returns the error; a successful publish of
kind `order.created` appends the two-field record to `orders` and
nothing to another stream. -/
theorem publish_wire_record_witness :
    Publish (fun _ => []) "order.created" (MarshalResult.err "boom") none
      = ((fun _ => []), some "boom") ∧
    (Publish (fun _ => []) "order.created" (MarshalResult.ok "x") none).1 "orders"
      = [[("event", RVal.str "order.created"), ("payload", RVal.str "x")]] ∧
    (Publish (fun _ => []) "order.created" (MarshalResult.ok "x") none).1 "events"
      = [] := by
  have h := publish_wire_record
  refine ⟨h.1 (fun _ => []) "order.created" "boom" none, ?_,
    (h.2 (fun _ => []) "order.created" "x").2.1 "events" (by decide)⟩
  have h2 := (h.2 (fun _ => []) "order.created" "x").1
  simpa using h2

/-- C4. If the repository write succeeds, `CreateOrder` returns the
created order with no error even when the subsequent event publish
fails: the final repository state is exactly the committed write (the
initial state plus the new order — nothing is rolled back), the caller
gets the order, and the publish failure is only logged. -/
theorem publish_failure_not_rolled_back
    (env : ServiceEnv) (st : RepoState) (req : CreateOrderRequest) (e : Err)
    (hc : env.createErr = none) (hp : env.publisherPresent = true)
    (he : env.publishErr = some e) :
    (CreateOrder env st req).1 = st.create (mkOrder env req) ∧
    (CreateOrder env st req).2.1 = Except.ok (mkOrder env req) ∧
    SvcAction.logPublishError ∈ (CreateOrder env st req).2.2 := by
  simp [CreateOrder, hc, hp, he]

/-- Witness for C4 at a concrete request with a failing publisher: the
caller still receives the created order. -/
theorem publish_failure_not_rolled_back_witness :
    (CreateOrder ⟨"u1", 0, true, some "redis down", none⟩ ⟨[]⟩ ⟨"Laptop", 2⟩).1
      = RepoState.create ⟨[]⟩ ⟨"u1", "Laptop", 2, "pending", 0⟩ ∧
    (CreateOrder ⟨"u1", 0, true, some "redis down", none⟩ ⟨[]⟩ ⟨"Laptop", 2⟩).2.1
      = Except.ok ⟨"u1", "Laptop", 2, "pending", 0⟩ := by
  have h := publish_failure_not_rolled_back
    ⟨"u1", 0, true, some "redis down", none⟩ ⟨[]⟩ ⟨"Laptop", 2⟩
    "redis down" rfl rfl rfl
  exact ⟨h.1, h.2.1⟩

/-- C10. Every order returned by `CreateOrder` has status the literal
`"pending"` and the freshly generated UUID as its id; and the order
literal the service builds depends on the request only through `Product`
and `Quantity` — its id and status are the same for every request, so a
client can never choose the initial status or the id. -/
theorem created_order_pending_with_fresh_id
    (env : ServiceEnv) (st : RepoState) (req : CreateOrderRequest) (o : Order)
    (h : (CreateOrder env st req).2.1 = Except.ok o) :
    o.status = "pending" ∧ o.id = env.newUUID ∧
    (∀ r1 r2 : CreateOrderRequest,
      (mkOrder env r1).id = (mkOrder env r2).id ∧
      (mkOrder env r1).status = (mkOrder env r2).status) := by
  have ho : o = mkOrder env req := by
    unfold CreateOrder at h
    cases hc : env.createErr with
    | some e => simp [hc] at h
    | none =>
      cases hp : env.publisherPresent with
      | false => simp [hc, hp] at h; exact h.symm
      | true =>
        cases he : env.publishErr with
        | some e => simp [hc, hp, he] at h; exact h.symm
        | none => simp [hc, hp, he] at h; exact h.symm
  subst ho
  exact ⟨rfl, rfl, fun r1 r2 => ⟨rfl, rfl⟩⟩

/-- Witness for C10: a concrete create returns an order with status
`"pending"` and the generated UUID. -/
theorem created_order_pending_witness :
    (⟨"u1", "Laptop", 2, "pending", 0⟩ : Order).status = "pending" ∧
    (⟨"u1", "Laptop", 2, "pending", 0⟩ : Order).id = "u1" := by
  have h := created_order_pending_with_fresh_id
    ⟨"u1", 0, false, none, none⟩ ⟨[]⟩ ⟨"Laptop", 2⟩
    ⟨"u1", "Laptop", 2, "pending", 0⟩ rfl
  exact ⟨h.1, h.2.1⟩

/-- In a table whose ids are distinct, replacing every row matching the
id of the row `find?` located with that row carrying a new status is the
same as giving each matching row itself the new status: the located row
is the unique match. -/
lemma update_map_congr (status : String) (l : List Order) :
    ∀ order : Order, (l.map Order.id).Nodup →
      l.find? (fun o => o.id == order.id) = some order →
      l.map (fun x => if x.id == order.id then { order with status := status } else x)
        = l.map (fun x => if x.id == order.id then { x with status := status } else x) := by
  induction l with
  | nil => intro order _ hf; simp at hf
  | cons a tl ih =>
    intro order hnd hf
    simp only [List.map_cons, List.nodup_cons] at hnd
    by_cases ha : (a.id == order.id) = true
    · have hfc : List.find? (fun o => o.id == order.id) (a :: tl) = some a :=
        List.find?_cons_of_pos tl ha
      have horder : order = a := (Option.some_inj.mp (hfc.symm.trans hf)).symm
      subst horder
      have hnotin : ∀ x ∈ tl, (x.id == order.id) = false := by
        intro x hx
        rw [beq_eq_false_iff_ne]
        intro hxe
        exact hnd.1 (by
          rw [← hxe]
          exact List.mem_map_of_mem Order.id hx)
      simp only [List.map_cons, if_pos ha]
      congr 1
      exact List.map_congr_left (fun x hx => by simp [hnotin x hx])
    · have hfc : List.find? (fun o => o.id == order.id) (a :: tl)
          = List.find? (fun o => o.id == order.id) tl :=
        List.find?_cons_of_neg tl ha
      rw [hfc] at hf
      simp only [List.map_cons, if_neg ha]
      congr 1
      exact ih order hnd.2 hf

/-- C9. `UpdateOrderStatus` changes only the `Status` field: when it
succeeds on a table with distinct ids, the new table is the old one with
the matching row's status replaced by the given status — same `ID`,
`Product`, `Quantity` and `CreatedAt`, and every other row untouched;
and on any read or write error the repository state is left unchanged. -/
theorem updateStatus_changes_only_status
    (env : RepoEnv) (st : RepoState) (id status : String)
    (hnd : (st.orders.map Order.id).Nodup) :
    (∀ st', UpdateOrderStatus env st id status = (st', none) →
      st'.orders
        = st.orders.map (fun x => if x.id == id then { x with status := status } else x)) ∧
    (∀ st' e, UpdateOrderStatus env st id status = (st', some e) → st' = st) := by
  constructor
  · intro st' h
    unfold UpdateOrderStatus at h
    cases hg : env.getErr with
    | some e => simp [hg] at h
    | none =>
      cases hf : st.getByID id with
      | none => simp [hg, hf] at h
      | some order =>
        cases hu : env.updateErr with
        | some e => simp [hg, hf, hu] at h
        | none =>
          have hf' : st.orders.find? (fun o => o.id == id) = some order := hf
          have hideq : order.id = id := by simpa using List.find?_some hf'
          simp only [hg, hf, hu] at h
          unfold RepoState.update at h
          have hsome :
              (st.getByID ({ order with status := status } : Order).id).isSome = true := by
            show (st.getByID order.id).isSome = true
            rw [hideq, hf]
            rfl
          rw [if_pos hsome] at h
          have hst : st' = ⟨st.orders.map
              (fun x => if x.id == ({ order with status := status } : Order).id
                then { order with status := status } else x)⟩ :=
            (congrArg Prod.fst h).symm
          rw [hst]
          show st.orders.map
              (fun x => if x.id == order.id then { order with status := status } else x)
            = st.orders.map (fun x => if x.id == id then { x with status := status } else x)
          rw [← hideq]
          exact update_map_congr status st.orders order hnd (by rw [hideq]; exact hf')
  · intro st' e h
    unfold UpdateOrderStatus at h
    cases hg : env.getErr with
    | some ge =>
      simp only [hg] at h
      exact (congrArg Prod.fst h).symm
    | none =>
      cases hf : st.getByID id with
      | none =>
        simp only [hg, hf] at h
        exact (congrArg Prod.fst h).symm
      | some order =>
        cases hu : env.updateErr with
        | some ue =>
          simp only [hg, hf, hu] at h
          exact (congrArg Prod.fst h).symm
        | none =>
          simp only [hg, hf, hu, RepoState.update] at h
          by_cases hc : (st.getByID ({ order with status := status } : Order).id).isSome
          · rw [if_pos hc] at h
            exact absurd (congrArg Prod.snd h) (by simp)
          · rw [if_neg hc] at h
            exact (congrArg Prod.fst h).symm

/-- Witness for C9 at a concrete one-row table: the successful update
rewrites the table to the row with only the status replaced. -/
theorem updateStatus_changes_only_status_witness :
    (⟨[⟨"o1", "Laptop", 1, "confirmed", 5⟩]⟩ : RepoState).orders
      = [(⟨"o1", "Laptop", 1, "pending", 5⟩ : Order)].map
          (fun x => if x.id == "o1" then { x with status := "confirmed" } else x) := by
  have h := updateStatus_changes_only_status ⟨none, none⟩
    ⟨[⟨"o1", "Laptop", 1, "pending", 5⟩]⟩ "o1" "confirmed" (by decide)
  exact h.1 ⟨[⟨"o1", "Laptop", 1, "confirmed", 5⟩]⟩ (by decide)

end OrdersService
